import Mathlib

/-!
# Verification of the midas enrichment pipeline

A shallow embedding, in Lean 4, of the cache and enrichment logic of the
midas portfolio aggregator:

* `src/fetchers/coingecko.py` — `CoinGeckoFetcher.get_top_assets`,
  `CoinGeckoFetcher.get_coin_market_data_by_symbol`, and the
  `MarketDataCache` class (TTL-gated refresh, symbol→id resolution,
  single-symbol fallback);
* `src/fetchers/frankfurter.py` — the `FiatRateCache` class;
* `src/services/portfolio.py` / `src/utils/portfolio_helpers.py` —
  `enrich_holdings`, `resolve_cg_id`, `enrich_fiat_asset` and the
  raw-holding / market-metadata merge.

Python dictionaries are modelled as insertion-ordered association lists
with unique keys (`Dict`), JSON scalar values as `Value`, the monotone
wall clock as natural-number seconds, and external HTTP calls as explicit
oracle parameters (`Option`-valued: `none` models a transport/parse
failure or a non-200 response).  An uncaught Python exception is modelled
by an `Option`-valued result (`none` = the exception propagates) or, for
the stateful fiat refresh, by an explicit `raised` flag paired with the
(unchanged) object state.
-/

namespace Midas

/-- A JSON-ish scalar stored in the dynamic asset dictionaries.  `null`
models Python's `None`. -/
inductive Value where
  | str (s : String)
  | num (q : ℚ)
  | bool (b : Bool)
  | null
deriving DecidableEq, Repr

/-- A Python `dict` with string keys: an insertion-ordered association
list.  All operations below preserve key uniqueness, mirroring `dict`
semantics (updating an existing key keeps its position; a new key is
appended). -/
abbrev Dict (α : Type) : Type := List (String × α)

/-- `d.get(k)` / `k in d`: the first binding of `k`. -/
def Dict.lookup {α : Type} : Dict α → String → Option α
  | [], _ => none
  | (k, v) :: rest, key => if k = key then some v else Dict.lookup rest key

/-- `k in d`. -/
def Dict.contains {α : Type} (d : Dict α) (k : String) : Bool :=
  (Dict.lookup d k).isSome

/-- `d[k] = v`: replace in place if the key exists, else append. -/
def Dict.insert {α : Type} : Dict α → String → α → Dict α
  | [], key, v => [(key, v)]
  | (k, w) :: rest, key, v =>
      if k = key then (k, v) :: rest else (k, w) :: Dict.insert rest key v

/-- `{**a, **b}` / `a.update(b)`: fold the bindings of `b` into `a`. -/
def Dict.merge {α : Type} (a b : Dict α) : Dict α :=
  b.foldl (fun acc kv => Dict.insert acc kv.1 kv.2) a

/-! ## Python string primitives

Modelled on character lists with structural recursion, so that every
definition evaluates inside the kernel. -/

/-- Python `s.lower()` (per-character lowercasing). -/
def pyLower (s : String) : String := String.mk (s.data.map Char.toLower)

/-- Python `s.upper()`. -/
def pyUpper (s : String) : String := String.mk (s.data.map Char.toUpper)

/-- Strip `pat` from the front of `s`, returning the remainder. -/
def stripPat : List Char → List Char → Option (List Char)
  | [], s => some s
  | _ :: _, [] => none
  | p :: ps, c :: cs => if c = p then stripPat ps cs else none

/-- Left-to-right, non-overlapping replacement of `pat` by `repl`, with
explicit fuel (instantiated to the string length, which suffices for a
nonempty pattern). -/
def replaceAux (pat repl : List Char) : Nat → List Char → List Char
  | _, [] => []
  | 0, s => s
  | fuel + 1, c :: cs =>
      match stripPat pat (c :: cs) with
      | some rest => repl ++ replaceAux pat repl fuel rest
      | none => c :: replaceAux pat repl fuel cs

/-- Python `s.replace(pat, repl)` for a nonempty pattern (the code only
ever passes the pattern `"_in_currency"`; the empty pattern is modelled as
the identity). -/
def pyReplace (s pat repl : String) : String :=
  match pat.data with
  | [] => s
  | _ :: _ => String.mk (replaceAux pat.data repl.data s.data.length s.data)

/-- Python `s.endswith(pat)`. -/
def pyEndsWith (s pat : String) : Bool :=
  decide (pat.data.length ≤ s.data.length) &&
    decide (s.data.drop (s.data.length - pat.data.length) = pat.data)

/-! ## CoinGeckoFetcher (src/fetchers/coingecko.py) -/

/-- `self.timeframes = ["7d", "14d", "30d", "200d", "1y"]`. -/
def timeframes : List String := ["7d", "14d", "30d", "200d", "1y"]

/-- `coin.get(k)` with Python's `None` default, as a `Value`. -/
def pyGet (coin : Dict Value) (k : String) : Value :=
  (Dict.lookup coin k).getD Value.null

/-- `CoinGeckoFetcher._extract_clean_price_changes`: the dict comprehension
`{f"price_change_percentage_{t}": coin.get(f"price_change_percentage_{t}_in_currency")
for t in self.timeframes}`. -/
def extract_clean_price_changes (coin : Dict Value) : Dict Value :=
  timeframes.foldl
    (fun acc t =>
      Dict.insert acc ("price_change_percentage_" ++ t)
        (pyGet coin ("price_change_percentage_" ++ t ++ "_in_currency")))
    []

/-- `cleaned_data = {**coin, **self._extract_clean_price_changes(coin)}`.
The `MarketData(**cleaned_data)` pydantic record is modelled by the cleaned
field dictionary itself. -/
def cleanedMarketData (coin : Dict Value) : Dict Value :=
  Dict.merge coin (extract_clean_price_changes coin)

/-- `coin.get("symbol", "").lower()`.  Raw listing entries carry string
symbols (or omit the key); a non-string value would raise in Python and is
modelled as the falsy `""`. -/
def coinSymbol (coin : Dict Value) : String :=
  match Dict.lookup coin "symbol" with
  | some (Value.str s) => pyLower s
  | _ => ""

/-- `coin.get("id")`: `none` when the key is absent or JSON `null`. -/
def coinId (coin : Dict Value) : Option String :=
  match Dict.lookup coin "id" with
  | some (Value.str i) => some i
  | _ => none

/-- Python truthiness of `coin_id` (a string id is truthy iff nonempty). -/
def coinIdTruthy (coin : Dict Value) : Option String :=
  match coinId coin with
  | some i => if i = "" then none else some i
  | none => none

/-- The pair of maps built by `CoinGeckoFetcher.get_top_assets`. -/
structure TopAssets where
  symbol_to_id : Dict String
  id_to_market_data : Dict (Dict Value)
deriving DecidableEq, Repr

/-- The body of the inner `for coin in response.json()` loop of
`get_top_assets`: record `symbol → id` and `id → MarketData(**cleaned_data)`
only when `symbol and coin_id and symbol not in symbol_to_id`. -/
def topAssetsStep (acc : TopAssets) (coin : Dict Value) : TopAssets :=
  let symbol := coinSymbol coin
  match coinIdTruthy coin with
  | some coin_id =>
      if symbol ≠ "" ∧ Dict.contains acc.symbol_to_id symbol = false then
        { symbol_to_id := Dict.insert acc.symbol_to_id symbol coin_id,
          id_to_market_data :=
            Dict.insert acc.id_to_market_data coin_id (cleanedMarketData coin) }
      else acc
  | none => acc

/-- `CoinGeckoFetcher.get_top_assets`.  The external fetch of the three
listing pages is an explicit argument: `none` models any transport error,
non-200 status or parse failure during the paged loop (the `except` branch
logs and returns `({}, {})`); `some pages` gives the parsed page bodies in
ascending page order. -/
def get_top_assets (fetched : Option (List (List (Dict Value)))) : TopAssets :=
  match fetched with
  | none => ⟨[], []⟩
  | some pages => pages.foldl (fun acc page => page.foldl topAssetsStep acc) ⟨[], []⟩

/-- Python `list(s)` on a string: the list of its one-character strings. -/
def pyList (s : String) : List String :=
  s.data.map (fun c => String.singleton c)

/-- `",".join(symbols)`. -/
def joinComma (symbols : List String) : String :=
  String.intercalate "," symbols

/-- The `symbols` query-string value that `MarketDataCache.get_asset_fallback`
causes to be sent for a symbol: it calls
`get_coin_market_data_by_symbol(list(symbol))`, which joins with commas. -/
def fallbackQuery (symbol : String) : String :=
  joinComma (pyList symbol)

/-- `CoinGeckoFetcher.get_coin_market_data_by_symbol`.  `respond` maps the
comma-joined `symbols` query value to the parsed response body (`none` =
transport error or non-200, both raised and then caught by the enclosing
`try`, which returns `(None, {})`; an empty body hits `IndexError` on
`response.json()[0]`, likewise caught).  The pydantic `MarketData` record
is modelled by the cleaned dictionary. -/
def get_coin_market_data_by_symbol (respond : String → Option (List (Dict Value)))
    (symbols : List String) : Option String × Dict Value :=
  let symbol_str := joinComma symbols
  match respond symbol_str with
  | none => (none, [])
  | some [] => (none, [])
  | some (coin :: _) => (coinId coin, cleanedMarketData coin)

/-! ## MarketDataCache (src/fetchers/coingecko.py) -/

/-- The `MarketDataCache` object state.  `fetches` is instrumentation
counting invocations of `_refresh_cache` (each performs one underlying
`get_top_assets` fetch); the wall clock is passed explicitly as seconds. -/
structure MarketDataCache where
  symbol_to_id : Dict String
  id_to_market_data : Dict (Dict Value)
  last_refreshed : Option Nat
  ttl_seconds : Nat
  fetches : Nat
deriving DecidableEq, Repr

namespace MarketDataCache

/-- Default construction `MarketDataCache(ttl_seconds)`: no injected
backends, so both maps start empty and nothing was ever refreshed. -/
def mk0 (ttl : Nat) : MarketDataCache :=
  { symbol_to_id := [], id_to_market_data := [], last_refreshed := none,
    ttl_seconds := ttl, fetches := 0 }

/-- `MarketDataCache._refresh_cache`: one `get_top_assets` fetch, then both
maps are rebuilt from its result (shallow copies `{**symbol_to_id}`,
`{**id_to_market_data}`) and `_last_refreshed` is set to now. -/
def refresh_cache (fetched : Option (List (List (Dict Value)))) (now : Nat)
    (c : MarketDataCache) : MarketDataCache :=
  let r := get_top_assets fetched
  { c with symbol_to_id := r.symbol_to_id, id_to_market_data := r.id_to_market_data,
           last_refreshed := some now, fetches := c.fetches + 1 }

/-- `MarketDataCache.initialize` (called once at startup): an unconditional
refresh. -/
def startup (fetched : Option (List (List (Dict Value)))) (now : Nat)
    (c : MarketDataCache) : MarketDataCache :=
  refresh_cache fetched now c

/-- The staleness test of `maybe_refresh`:
`self._last_refreshed is None or datetime.now() - self._last_refreshed >
timedelta(seconds=self.ttl_seconds)`. -/
def stale (now : Nat) (c : MarketDataCache) : Bool :=
  match c.last_refreshed with
  | none => true
  | some t => decide (now - t > c.ttl_seconds)

/-- `MarketDataCache.maybe_refresh`. -/
def maybe_refresh (fetched : Option (List (List (Dict Value)))) (now : Nat)
    (c : MarketDataCache) : MarketDataCache :=
  if stale now c then refresh_cache fetched now c else c

/-- `MarketDataCache.get_id_from_symbol`: `self.symbol_to_id.get(symbol.lower())`
(the falsy check only prints a warning; the value is returned as is). -/
def get_id_from_symbol (c : MarketDataCache) (symbol : String) : Option String :=
  Dict.lookup c.symbol_to_id (pyLower symbol)

/-- `MarketDataCache.get_asset_fallback`: fetch via
`get_coin_market_data_by_symbol(list(symbol))`; when the returned id
`is not None`, insert into both maps and return it, else leave the cache
untouched and return `None`. -/
def get_asset_fallback (respond : String → Option (List (Dict Value)))
    (c : MarketDataCache) (symbol : String) : MarketDataCache × Option String :=
  match get_coin_market_data_by_symbol respond (pyList symbol) with
  | (some asset_id, market_data) =>
      ({ c with symbol_to_id := Dict.insert c.symbol_to_id symbol asset_id,
                id_to_market_data := Dict.insert c.id_to_market_data asset_id market_data },
       some asset_id)
  | (none, _) => (c, none)

end MarketDataCache

/-! ## FiatRateCache (src/fetchers/frankfurter.py) -/

/-- The `FiatRateCache` object state.  `fetches` is instrumentation
counting refresh attempts (each issues one GET to the rate source). -/
structure FiatRateCache where
  rates : Dict ℚ
  last_refreshed : Option Nat
  ttl_seconds : Nat
  fetches : Nat
deriving DecidableEq, Repr

namespace FiatRateCache

/-- Default construction `FiatRateCache(ttl_seconds)`. -/
def mk0 (ttl : Nat) : FiatRateCache :=
  { rates := [], last_refreshed := none, ttl_seconds := ttl, fetches := 0 }

/-- The comprehension `{k.lower(): float(v) for k, v in data["rates"].items()}`. -/
def buildRates (payload : List (String × ℚ)) : Dict ℚ :=
  payload.foldl (fun acc kv => Dict.insert acc (pyLower kv.1) kv.2) []

/-- `FiatRateCache._refresh_cache`.  `payload` is the `data["rates"]`
mapping of the parsed response (`none` models a transport error, a JSON
parse error, a missing `"rates"` key or an unparsable rate value).  The
method has no `try`/`except`: on failure the exception propagates — the
`Bool` component is the raised flag — and none of the object's fields are
assigned (the assignments all sit after the fallible lines), so the
previous `rates` table and `_last_refreshed` survive.  On success the
whole table is replaced and `"usd"` is force-set to `1.0` afterwards. -/
def refresh_cache (payload : Option (List (String × ℚ))) (now : Nat)
    (c : FiatRateCache) : FiatRateCache × Bool :=
  match payload with
  | none => ({ c with fetches := c.fetches + 1 }, true)
  | some kvs =>
      ({ c with rates := Dict.insert (buildRates kvs) "usd" 1,
                last_refreshed := some now, fetches := c.fetches + 1 },
       false)

/-- `FiatRateCache.initialize`: an unconditional refresh. -/
def startup (payload : Option (List (String × ℚ))) (now : Nat)
    (c : FiatRateCache) : FiatRateCache × Bool :=
  refresh_cache payload now c

/-- The staleness test of `maybe_refresh` (same shape as the market cache's). -/
def stale (now : Nat) (c : FiatRateCache) : Bool :=
  match c.last_refreshed with
  | none => true
  | some t => decide (now - t > c.ttl_seconds)

/-- `FiatRateCache.maybe_refresh`. -/
def maybe_refresh (payload : Option (List (String × ℚ))) (now : Nat)
    (c : FiatRateCache) : FiatRateCache × Bool :=
  if stale now c then refresh_cache payload now c else (c, false)

/-- `FiatRateCache.get_rate`: `self.rates.get(symbol.lower())`. -/
def get_rate (c : FiatRateCache) (symbol : String) : Option ℚ :=
  Dict.lookup c.rates (pyLower symbol)

end FiatRateCache

/-! ## Enrichment (src/services/portfolio.py, src/utils/portfolio_helpers.py) -/

/-- `resolve_cg_id`: cache lookup first; on miss, the fallback fetch
(which self-updates the cache); a falsy fallback id (`None` or `""`)
yields `None`. -/
def resolve_cg_id (respond : String → Option (List (Dict Value)))
    (c : MarketDataCache) (symbol : String) : MarketDataCache × Option String :=
  match MarketDataCache.get_id_from_symbol c symbol with
  | some cg_id => (c, some cg_id)
  | none =>
      match MarketDataCache.get_asset_fallback respond c symbol with
      | (c', some fallback_id) =>
          if fallback_id = "" then (c', none) else (c', some fallback_id)
      | (c', none) => (c', none)

/-- `asset["symbol"]`: `none` models the uncaught `KeyError` (or a
non-string value, on which `.lower()` would raise). -/
def assetSymbol (asset : Dict Value) : Option String :=
  match Dict.lookup asset "symbol" with
  | some (Value.str s) => some s
  | _ => none

/-- The `FiatAsset` pydantic record. -/
structure FiatAsset where
  id : String
  symbol : String
  name : String
  balance : ℚ
  usd_value : ℚ
deriving DecidableEq, Repr

/-- `asset.get("id")` under `FiatAsset`'s `id: str` validation: `none`
models the `ValidationError` raised when the id is absent or not a
string. -/
def getFiatId (asset : Dict Value) : Option String :=
  match Dict.lookup asset "id" with
  | some (Value.str i) => some i
  | _ => none

/-- `asset.get("name", symbol.upper())` under `name: str` validation. -/
def getName (asset : Dict Value) (symbol : String) : Option String :=
  match Dict.lookup asset "name" with
  | some (Value.str n) => some n
  | none => some (pyUpper symbol)
  | some _ => none

/-- `asset.get("balance", 0.0)`; a non-numeric stored balance would raise
at `balance * rate`, modelled as `none`. -/
def getBalance (asset : Dict Value) : Option ℚ :=
  match Dict.lookup asset "balance" with
  | some (Value.num b) => some b
  | none => some 0
  | some _ => none

/-- `enrich_fiat_asset`.  Outer `none` = an uncaught exception (missing
`symbol` key, or `FiatAsset` validation failure — the function has no
`try`); `some none` = the "No USD conversion rate … Skipping." branch
returning `None`; `some (some a)` = the constructed record with
`usd_value = balance * rate`. -/
def enrich_fiat_asset (asset : Dict Value) (fiat : FiatRateCache) :
    Option (Option FiatAsset) :=
  match assetSymbol asset with
  | none => none
  | some s =>
      let symbol := pyLower s
      match FiatRateCache.get_rate fiat symbol with
      | none => some none
      | some rate =>
          match getFiatId asset, getName asset symbol, getBalance asset with
          | some i, some n, some b =>
              some (some { id := i, symbol := symbol, name := n,
                           balance := b, usd_value := b * rate })
          | _, _, _ => none

/-- The key cleanup in the merge loop:
`k.replace("_in_currency", "") if k.endswith("_in_currency") else k`. -/
def cleanedKey (k : String) : String :=
  if pyEndsWith k "_in_currency" then pyReplace k "_in_currency" "" else k

/-- One iteration of the merge loop of `enrich_holdings` (also the body of
`enrich_crypto_asset` in `portfolio_helpers.py`):
`if cleaned_key not in merged: merged[cleaned_key] = v`. -/
def mergeStep (merged : Dict Value) (kv : String × Value) : Dict Value :=
  let ck := cleanedKey kv.1
  if Dict.contains merged ck then merged else Dict.insert merged ck kv.2

/-- The merged record: `merged = dict(asset)` then the loop over
`asset_md_dict.items()`. -/
def enrichMerge (asset : Dict Value) (asset_md_dict : Dict Value) : Dict Value :=
  asset_md_dict.foldl mergeStep asset

/-- The `CryptoAsset` pydantic record, carrying its merged field dict. -/
structure CryptoAsset where
  fields : Dict Value
deriving DecidableEq, Repr

/-- `CryptoAsset(**merged)`: validation of the required typed fields
(`id`, `name`, `symbol` strings; `balance`, `usd_price`, `usd_value`
numbers; `is_staked` boolean).  `none` models the `ValidationError`,
which the enclosing `try` catches, dropping the holding. -/
def mkCryptoAsset (merged : Dict Value) : Option CryptoAsset :=
  let isStr := fun k => match Dict.lookup merged k with
    | some (Value.str _) => true | _ => false
  let isNum := fun k => match Dict.lookup merged k with
    | some (Value.num _) => true | _ => false
  let isBool := fun k => match Dict.lookup merged k with
    | some (Value.bool _) => true | _ => false
  if isStr "id" && isStr "name" && isStr "symbol" && isNum "balance" &&
     isNum "usd_price" && isNum "usd_value" && isBool "is_staked"
  then some ⟨merged⟩ else none

/-- An output entry of `enrich_holdings`. -/
inductive EnrichedAsset where
  | crypto (a : CryptoAsset)
  | fiat (a : FiatAsset)
deriving DecidableEq, Repr

/-- One iteration of the `for asset in raw_assets` loop of
`enrich_holdings`: `none` = an uncaught exception (a missing/non-string
`symbol`, the unguarded `market_cache.id_to_market_data[cg_id]` index, or
a fiat validation error); `some (c', r)` = the loop continues with cache
state `c'`, having appended `r` (one entry or nothing) to the output. -/
def enrichOne (respond : String → Option (List (Dict Value))) (fiat : FiatRateCache)
    (c : MarketDataCache) (asset : Dict Value) :
    Option (MarketDataCache × Option EnrichedAsset) :=
  match assetSymbol asset with
  | none => none
  | some s =>
      let symbol := pyLower s
      match resolve_cg_id respond c symbol with
      | (c1, none) =>
          match enrich_fiat_asset asset fiat with
          | none => none
          | some r => some (c1, r.map EnrichedAsset.fiat)
      | (c1, some cg_id) =>
          match Dict.lookup c1.id_to_market_data cg_id with
          | none => none
          | some asset_md =>
              some (c1, (mkCryptoAsset (enrichMerge asset asset_md)).map EnrichedAsset.crypto)

/-- `enrich_holdings`: the loop over `raw_assets`, threading the (mutable)
market cache and collecting `enriched_assets` in input order.  `none` = an
uncaught exception aborts the whole call. -/
def enrich_holdings (respond : String → Option (List (Dict Value)))
    (fiat : FiatRateCache) :
    MarketDataCache → List (Dict Value) → Option (MarketDataCache × List EnrichedAsset)
  | c, [] => some (c, [])
  | c, asset :: rest =>
      match enrichOne respond fiat c asset with
      | none => none
      | some (c1, r) =>
          match enrich_holdings respond fiat c1 rest with
          | none => none
          | some (c2, tail) => some (c2, r.toList ++ tail)

/-- The per-holding outcome trace of the same run: entry `i` is the output
contribution (possibly `none` = dropped) of input holding `i`. -/
def enrichResults (respond : String → Option (List (Dict Value)))
    (fiat : FiatRateCache) :
    MarketDataCache → List (Dict Value) → Option (List (Option EnrichedAsset))
  | _, [] => some []
  | c, asset :: rest =>
      match enrichOne respond fiat c asset with
      | none => none
      | some (c1, r) => (enrichResults respond fiat c1 rest).map (r :: ·)

/-- C1 counterexample: a `MarketDataCache` holding a previous snapshot
loses it on a failed refresh — `get_top_assets` swallows the error and
returns `({}, {})`, which `_refresh_cache` unconditionally installs — so
the snapshots are *not* retained unchanged as the claim states. -/
def c1prev : MarketDataCache :=
  { symbol_to_id := [("btc", "bitcoin")],
    id_to_market_data := [("bitcoin", [("symbol", Value.str "btc")])],
    last_refreshed := some 0, ttl_seconds := 3600, fetches := 1 }

/-- C2 counterexample state: a `FiatRateCache` with a previous table. -/
def c2prev : FiatRateCache :=
  { rates := [("eur", 1)], last_refreshed := some 0, ttl_seconds := 3600, fetches := 1 }

/-- C4 oracle: the listing answers only the exact query `"doge"`. -/
def c4respond : String → Option (List (Dict Value)) :=
  fun q =>
    if q = "doge" then
      some [[("symbol", Value.str "doge"), ("id", Value.str "dogecoin")]]
    else none

/-- C9 oracle: every fallback fetch fails. -/
def c9respond : String → Option (List (Dict Value)) := fun _ => none

/-- C3 witness raw holding. -/
def c3asset : Dict Value :=
  [("id", Value.str "acct-1"), ("symbol", Value.str "btc"),
   ("balance", Value.num 5), ("usd_value", Value.num 10)]

/-- C3 witness metadata dict, with colliding keys (one via the
`_in_currency` rename). -/
def c3md : Dict Value :=
  [("id", Value.str "bitcoin"), ("balance", Value.num 999),
   ("usd_value_in_currency", Value.num 123), ("current_price", Value.num 7)]

/-- The id of the first entry, in processing order, that carries symbol
`s` together with a truthy id — the entry `get_top_assets` records for
`s`. -/
def firstValidId (s : String) : List (Dict Value) → Option String
  | [] => none
  | coin :: rest =>
      match coinIdTruthy coin with
      | some i => if coinSymbol coin = s then some i else firstValidId s rest
      | none => firstValidId s rest

/-- C6 witness pages: `"btc"` appears on page 1 with id `"bitcoin"` and on
page 2 with id `"batcat-token"`. -/
def c6pages : List (List (Dict Value)) :=
  [[[("symbol", Value.str "BTC"), ("id", Value.str "bitcoin")]],
   [[("symbol", Value.str "btc"), ("id", Value.str "batcat-token")],
    [("symbol", Value.str "eth"), ("id", Value.str "ethereum")]]]

/-- Every id appearing as a value of the first map is a key of the
second. -/
def mapsConsistent (symbol_to_id : Dict String) (id_to_market_data : Dict (Dict Value)) :
    Prop :=
  ∀ s i, Dict.lookup symbol_to_id s = some i →
    Dict.contains id_to_market_data i = true

/-- The C10 invariant on a `MarketDataCache`: every id occurring as a
value of `symbol_to_id` is a key of `id_to_market_data`. -/
def idsConsistent (c : MarketDataCache) : Prop :=
  mapsConsistent c.symbol_to_id c.id_to_market_data

/-- C10 witness oracle: the fallback listing answers every query with a
single dogecoin entry. -/
def c10respond : String → Option (List (Dict Value)) :=
  fun _ => some [[("symbol", Value.str "doge"), ("id", Value.str "dogecoin")]]

/-- The cache state after a concrete fallback-backed resolve. -/
def c10resolved : MarketDataCache :=
  (resolve_cg_id c10respond (MarketDataCache.mk0 3600) "doge").1

/-- C7 witness fiat cache (`jpy` has a rate, `xzy` does not). -/
def c7fiat : FiatRateCache :=
  { rates := [("jpy", 1/2)], last_refreshed := some 0, ttl_seconds := 3600, fetches := 1 }

/-- C7 witness market cache (only `btc` resolves). -/
def c7market : MarketDataCache :=
  { symbol_to_id := [("btc", "bitcoin")],
    id_to_market_data := [("bitcoin", [])],
    last_refreshed := some 0, ttl_seconds := 3600, fetches := 1 }

/-- C7 witness oracle: every fallback fetch fails. -/
def c7respond : String → Option (List (Dict Value)) := fun _ => none

/-- C7 witness holding that resolves to a market identity. -/
def c7btc : Dict Value :=
  [("id", Value.str "acct-1"), ("name", Value.str "Bitcoin"), ("symbol", Value.str "BTC"),
   ("balance", Value.num 5), ("usd_price", Value.num 2), ("usd_value", Value.num 10),
   ("is_staked", Value.bool false)]

/-- C7 witness holding valued through the fiat branch. -/
def c7jpy : Dict Value :=
  [("id", Value.str "acct-2"), ("name", Value.str "Japanese Yen"),
   ("symbol", Value.str "JPY"), ("balance", Value.num 4)]

/-- C7 witness holding with neither market identity nor fiat rate. -/
def c7xzy : Dict Value :=
  [("id", Value.str "acct-3"), ("symbol", Value.str "XZY"), ("balance", Value.num 1)]

/-- C7 witness input sequence. -/
def c7assets : List (Dict Value) := [c7btc, c7jpy, c7xzy]

/-- C7 witness expected output: two entries in input order, `xzy` dropped. -/
def c7out : List EnrichedAsset :=
  [EnrichedAsset.crypto ⟨c7btc⟩,
   EnrichedAsset.fiat ⟨"acct-2", "jpy", "Japanese Yen", 4, 4 * (1/2)⟩]

/-! ## Lemmas and claim theorems -/

theorem Dict.lookup_insert {α : Type} (d : Dict α) (k : String) (v : α) (key : String) :
    Dict.lookup (Dict.insert d k v) key = if k = key then some v else Dict.lookup d key := by
  induction d with
  | nil => simp [Dict.insert, Dict.lookup]
  | cons hd tl ih =>
    obtain ⟨k', w⟩ := hd
    by_cases h1 : k' = k
    · subst h1
      by_cases h2 : k' = key <;> simp [Dict.insert, Dict.lookup, h2]
    · by_cases h2 : k' = key
      · subst h2
        have h1' : ¬(k = k') := fun h => h1 h.symm
        simp [Dict.insert, Dict.lookup, h1, h1']
      · simp [Dict.insert, Dict.lookup, h1, h2, ih]

theorem Dict.lookup_insert_self {α : Type} (d : Dict α) (k : String) (v : α) :
    Dict.lookup (Dict.insert d k v) k = some v := by
  simp [Dict.lookup_insert]

theorem Dict.lookup_insert_ne {α : Type} (d : Dict α) (k : String) (v : α)
    (key : String) (h : k ≠ key) :
    Dict.lookup (Dict.insert d k v) key = Dict.lookup d key := by
  simp [Dict.lookup_insert, h]

theorem Dict.contains_insert {α : Type} (d : Dict α) (k : String) (v : α) (key : String) :
    Dict.contains (Dict.insert d k v) key = (decide (k = key) || Dict.contains d key) := by
  by_cases h : k = key <;> simp [Dict.contains, Dict.lookup_insert, h]

theorem Dict.contains_of_contains_insert {α : Type} {d : Dict α} {key : String}
    (k : String) (v : α) (h : Dict.contains d key = true) :
    Dict.contains (Dict.insert d k v) key = true := by
  simp [Dict.contains_insert, h]

/-! ## Supporting lemmas -/

theorem mergeStep_contains (d : Dict Value) (kv : String × Value) {k : String}
    (h : Dict.contains d k = true) : Dict.contains (mergeStep d kv) k = true := by
  unfold mergeStep
  by_cases hc : Dict.contains d (cleanedKey kv.1) <;>
    simp [hc, h, Dict.contains_of_contains_insert]

theorem mergeStep_lookup (d : Dict Value) (kv : String × Value) {k : String}
    (h : Dict.contains d k = true) :
    Dict.lookup (mergeStep d kv) k = Dict.lookup d k := by
  unfold mergeStep
  by_cases hc : Dict.contains d (cleanedKey kv.1)
  · simp [hc]
  · have hne : cleanedKey kv.1 ≠ k := fun he => hc (he ▸ h)
    simp [hc, Dict.lookup_insert_ne _ _ _ _ hne]

/-! ## Claim theorems -/

/-- C1 (counterexample): after `_refresh_cache` runs while the top-assets
fetch fails, the previously cached `symbol_to_id` and `id_to_market_data`
are replaced by empty maps, not retained. -/
theorem c1_refresh_failure_discards_snapshot :
    (MarketDataCache.refresh_cache none 10 c1prev).symbol_to_id = [] ∧
    (MarketDataCache.refresh_cache none 10 c1prev).id_to_market_data = [] ∧
    c1prev.symbol_to_id ≠ [] := by
  decide

/-- C1 (amended): when the top-assets fetch fails with a transport or
parse error, no exception propagates out of `_refresh_cache` (the fetcher
catches, logs, and returns empty maps — modelled by the function being
total), but the previous snapshots are discarded: both maps become empty
and `_last_refreshed` is still advanced. -/
theorem c1_refresh_failure_replaces_with_empty (now : Nat) (c : MarketDataCache) :
    MarketDataCache.refresh_cache none now c =
      { c with symbol_to_id := [], id_to_market_data := [],
               last_refreshed := some now, fetches := c.fetches + 1 } := rfl

/-- C2 (counterexample): `FiatRateCache._refresh_cache` has no
`try`/`except`: on a fetch/parse failure the exception *does* propagate to
the caller (the raised flag is `true`), contradicting the claim that no
exception propagates; the previous table does survive. -/
theorem c2_refresh_failure_propagates :
    (FiatRateCache.refresh_cache none 10 c2prev).2 = true ∧
    (FiatRateCache.refresh_cache none 10 c2prev).1.rates = c2prev.rates := by
  decide

/-- C2 (amended): on a fetch or parse failure, `FiatRateCache._refresh_cache`
lets the exception propagate to the caller (nothing catches or logs it),
but the previously cached rates table and `_last_refreshed` are left
intact, because the assignments only run after a successful parse. -/
theorem c2_refresh_failure_keeps_table (now : Nat) (c : FiatRateCache) :
    FiatRateCache.refresh_cache none now c = ({ c with fetches := c.fetches + 1 }, true) := rfl

/-- C4 (refutation / bug evidence): `get_asset_fallback("doge")` passes
`list("doge") = ['d','o','g','e']` to `get_coin_market_data_by_symbol`,
so the `symbols` query value sent is `"d,o,g,e"`, not the single symbol
`"doge"` — and a listing that would answer the single-symbol query is
never hit, so the fallback misses. -/
theorem c4_fallback_query_explodes_symbol :
    fallbackQuery "doge" = "d,o,g,e" ∧ fallbackQuery "doge" ≠ "doge" ∧
    MarketDataCache.get_asset_fallback c4respond (MarketDataCache.mk0 3600) "doge" =
      (MarketDataCache.mk0 3600, none) := by
  decide

/-- C5: after any completed refresh, `get_rate("usd")` returns `1.0`
whatever the source payload contained — `"usd"` is force-set after the
table is rebuilt, so a source that omits `"usd"` or reports a different
value for it is overridden. -/
theorem c5_get_rate_usd_always_one (payload : List (String × ℚ)) (now : Nat)
    (c : FiatRateCache) :
    FiatRateCache.get_rate (FiatRateCache.refresh_cache (some payload) now c).1 "usd" =
      some 1 := by
  have h : pyLower "usd" = "usd" := by decide
  simp [FiatRateCache.get_rate, FiatRateCache.refresh_cache, h, Dict.lookup_insert_self]

/-- C9: when the fallback fetch fails to obtain an id (`None` id from
`get_coin_market_data_by_symbol`), `get_asset_fallback` returns `None`
and leaves both cache maps untouched — no negative entry is recorded, so
a later resolve of the same symbol starts from the identical state and
re-attempts the fallback fetch. -/
theorem c9_fallback_miss_leaves_cache_unchanged
    (respond : String → Option (List (Dict Value))) (c : MarketDataCache)
    (symbol : String)
    (h : (get_coin_market_data_by_symbol respond (pyList symbol)).1 = none) :
    MarketDataCache.get_asset_fallback respond c symbol = (c, none) := by
  rcases hm : get_coin_market_data_by_symbol respond (pyList symbol) with ⟨fst, snd⟩
  rw [hm] at h
  simp only at h
  subst h
  simp [MarketDataCache.get_asset_fallback, hm]

/-- Witness for C9 at the concrete symbol `"doge"` with a failing fetch. -/
theorem c9_fallback_miss_witness :
    (get_coin_market_data_by_symbol c9respond (pyList "doge")).1 = none ∧
    MarketDataCache.get_asset_fallback c9respond (MarketDataCache.mk0 3600) "doge" =
      (MarketDataCache.mk0 3600, none) :=
  ⟨by decide,
   c9_fallback_miss_leaves_cache_unchanged c9respond (MarketDataCache.mk0 3600) "doge"
     (by decide)⟩

/-- C3: the merged crypto record keeps the raw holding's value for every
key the holding carries (metadata keys are `_in_currency`-stripped before
the collision check and only fill keys the holding lacks); in particular
`balance` and `usd_value` are never overwritten by market metadata. -/
theorem c3_merge_keeps_raw_holding_values (asset asset_md_dict : Dict Value)
    (k : String) (h : Dict.contains asset k = true) :
    Dict.lookup (enrichMerge asset asset_md_dict) k = Dict.lookup asset k := by
  induction asset_md_dict generalizing asset with
  | nil => rfl
  | cons kv rest ih =>
      have hrest := ih (mergeStep asset kv) (mergeStep_contains asset kv h)
      unfold enrichMerge at hrest ⊢
      simp only [List.foldl_cons]
      rw [hrest, mergeStep_lookup asset kv h]

/-- Witness for C3: the colliding `usd_value` (via `_in_currency` rename)
keeps the raw holding's value. -/
theorem c3_merge_witness :
    Dict.lookup (enrichMerge c3asset c3md) "usd_value" = Dict.lookup c3asset "usd_value" :=
  c3_merge_keeps_raw_holding_values c3asset c3md "usd_value" (by decide)

/-- Processing the three pages of `get_top_assets` in order is the fold of
`topAssetsStep` over the concatenated entries. -/
theorem get_top_assets_some_eq (pages : List (List (Dict Value))) :
    get_top_assets (some pages) = List.foldl topAssetsStep ⟨[], []⟩ pages.flatten := by
  show List.foldl (List.foldl topAssetsStep) ⟨[], []⟩ pages = _
  rw [List.foldl_flatten]

theorem foldl_topAssetsStep_lookup (entries : List (Dict Value)) (acc : TopAssets)
    (s : String) (hs : s ≠ "") :
    Dict.lookup (entries.foldl topAssetsStep acc).symbol_to_id s =
      (Dict.lookup acc.symbol_to_id s).or (firstValidId s entries) := by
  induction entries generalizing acc with
  | nil => simp [firstValidId]
  | cons coin rest ih =>
      rw [List.foldl_cons, ih (topAssetsStep acc coin)]
      rcases hid : coinIdTruthy coin with _ | i
      · simp [topAssetsStep, hid, firstValidId]
      · by_cases hsym : coinSymbol coin = s
        · rcases hl : Dict.lookup acc.symbol_to_id s with _ | v
          · have hc : Dict.contains acc.symbol_to_id s = false := by
              simp [Dict.contains, hl]
            simp [topAssetsStep, hid, hsym, hc, hs, hl, firstValidId,
              Dict.lookup_insert_self]
          · have hc : Dict.contains acc.symbol_to_id s = true := by
              simp [Dict.contains, hl]
            simp [topAssetsStep, hid, hsym, hc, hl, firstValidId]
        · have hmain :
              Dict.lookup (topAssetsStep acc coin).symbol_to_id s =
                Dict.lookup acc.symbol_to_id s := by
            simp only [topAssetsStep, hid]
            split
            · exact Dict.lookup_insert_ne _ _ _ _ hsym
            · rfl
          simp [hmain, firstValidId, hid, hsym]

/-- C6: symbol-to-id resolution is first-seen-wins across the paginated
top-assets refresh: for every nonempty symbol `s`, the map built by
`get_top_assets` sends `s` to the id of the *first* entry (pages processed
in ascending order, entries in page order) whose symbol is `s` and whose
id is truthy — so an id from an earlier-processed entry is never
overwritten by a later one, and each symbol maps to at most one canonical
id. -/
theorem c6_first_seen_wins (pages : List (List (Dict Value))) (s : String)
    (hs : s ≠ "") :
    Dict.lookup (get_top_assets (some pages)).symbol_to_id s =
      firstValidId s pages.flatten := by
  rw [get_top_assets_some_eq pages,
    foldl_topAssetsStep_lookup pages.flatten ⟨[], []⟩ s hs]
  simp [Dict.lookup]

/-- Witness for C6: on the concrete pages, `"btc"` resolves to the page-1
id `"bitcoin"`, not the page-2 id. -/
theorem c6_first_seen_wins_witness :
    Dict.lookup (get_top_assets (some c6pages)).symbol_to_id "btc" =
      firstValidId "btc" c6pages.flatten :=
  c6_first_seen_wins c6pages "btc" (by decide)

/-- C8: TTL gating, for both caches and both ensure-fresh sequences.  With
a fresh cache (default construction) and a monotone clock, a first refresh
at `t0` (via `initialize` — here `startup` — or `maybe_refresh`) followed
by `maybe_refresh` at `t1` performs exactly one underlying fetch when
`t1 - t0 ≤ ttl`, and exactly two when `t1 - t0 > ttl`.  The fiat sequences
use completed (successful) refreshes. -/
theorem c8_ttl_gates_fetches (ttl t0 t1 : Nat)
    (fr0 fr1 : Option (List (List (Dict Value))))
    (p0 p1 : List (String × ℚ)) (h01 : t0 ≤ t1) :
    (t1 - t0 ≤ ttl →
      (MarketDataCache.maybe_refresh fr1 t1
        (MarketDataCache.startup fr0 t0 (MarketDataCache.mk0 ttl))).fetches = 1) ∧
    (t1 - t0 > ttl →
      (MarketDataCache.maybe_refresh fr1 t1
        (MarketDataCache.startup fr0 t0 (MarketDataCache.mk0 ttl))).fetches = 2) ∧
    (t1 - t0 ≤ ttl →
      (MarketDataCache.maybe_refresh fr1 t1
        (MarketDataCache.maybe_refresh fr0 t0 (MarketDataCache.mk0 ttl))).fetches = 1) ∧
    (t1 - t0 > ttl →
      (MarketDataCache.maybe_refresh fr1 t1
        (MarketDataCache.maybe_refresh fr0 t0 (MarketDataCache.mk0 ttl))).fetches = 2) ∧
    (t1 - t0 ≤ ttl →
      (FiatRateCache.maybe_refresh (some p1) t1
        (FiatRateCache.startup (some p0) t0 (FiatRateCache.mk0 ttl)).1).1.fetches = 1) ∧
    (t1 - t0 > ttl →
      (FiatRateCache.maybe_refresh (some p1) t1
        (FiatRateCache.startup (some p0) t0 (FiatRateCache.mk0 ttl)).1).1.fetches = 2) ∧
    (t1 - t0 ≤ ttl →
      (FiatRateCache.maybe_refresh (some p1) t1
        (FiatRateCache.maybe_refresh (some p0) t0 (FiatRateCache.mk0 ttl)).1).1.fetches = 1) ∧
    (t1 - t0 > ttl →
      (FiatRateCache.maybe_refresh (some p1) t1
        (FiatRateCache.maybe_refresh (some p0) t0 (FiatRateCache.mk0 ttl)).1).1.fetches = 2) := by
  have hms : MarketDataCache.maybe_refresh fr0 t0 (MarketDataCache.mk0 ttl) =
      MarketDataCache.startup fr0 t0 (MarketDataCache.mk0 ttl) := rfl
  have hfs : FiatRateCache.maybe_refresh (some p0) t0 (FiatRateCache.mk0 ttl) =
      FiatRateCache.startup (some p0) t0 (FiatRateCache.mk0 ttl) := rfl
  have market : (MarketDataCache.maybe_refresh fr1 t1
      (MarketDataCache.startup fr0 t0 (MarketDataCache.mk0 ttl))).fetches =
      if t1 - t0 > ttl then 2 else 1 := by
    by_cases hgt : t1 - t0 > ttl <;>
      simp [MarketDataCache.maybe_refresh, MarketDataCache.startup,
        MarketDataCache.refresh_cache, MarketDataCache.stale, MarketDataCache.mk0, hgt]
  have fiat : (FiatRateCache.maybe_refresh (some p1) t1
      (FiatRateCache.startup (some p0) t0 (FiatRateCache.mk0 ttl)).1).1.fetches =
      if t1 - t0 > ttl then 2 else 1 := by
    by_cases hgt : t1 - t0 > ttl <;>
      simp [FiatRateCache.maybe_refresh, FiatRateCache.startup,
        FiatRateCache.refresh_cache, FiatRateCache.stale, FiatRateCache.mk0, hgt]
  refine ⟨fun h => ?_, fun h => ?_, fun h => ?_, fun h => ?_,
    fun h => ?_, fun h => ?_, fun h => ?_, fun h => ?_⟩ <;>
    first
      | (rw [market, if_neg (Nat.not_lt.mpr h)])
      | (rw [market, if_pos h])
      | (rw [hms, market, if_neg (Nat.not_lt.mpr h)])
      | (rw [hms, market, if_pos h])
      | (rw [fiat, if_neg (Nat.not_lt.mpr h)])
      | (rw [fiat, if_pos h])
      | (rw [hfs, fiat, if_neg (Nat.not_lt.mpr h)])
      | (rw [hfs, fiat, if_pos h])

/-- Witness for C8 at `ttl = 3600`, refreshes at `t0 = 0`, second calls at
`t1 = 10`. -/
theorem c8_ttl_witness :
    (10 - 0 ≤ 3600 →
      (MarketDataCache.maybe_refresh none 10
        (MarketDataCache.startup none 0 (MarketDataCache.mk0 3600))).fetches = 1) ∧
    (10 - 0 > 3600 →
      (MarketDataCache.maybe_refresh none 10
        (MarketDataCache.startup none 0 (MarketDataCache.mk0 3600))).fetches = 2) ∧
    (10 - 0 ≤ 3600 →
      (MarketDataCache.maybe_refresh none 10
        (MarketDataCache.maybe_refresh none 0 (MarketDataCache.mk0 3600))).fetches = 1) ∧
    (10 - 0 > 3600 →
      (MarketDataCache.maybe_refresh none 10
        (MarketDataCache.maybe_refresh none 0 (MarketDataCache.mk0 3600))).fetches = 2) ∧
    (10 - 0 ≤ 3600 →
      (FiatRateCache.maybe_refresh (some []) 10
        (FiatRateCache.startup (some []) 0 (FiatRateCache.mk0 3600)).1).1.fetches = 1) ∧
    (10 - 0 > 3600 →
      (FiatRateCache.maybe_refresh (some []) 10
        (FiatRateCache.startup (some []) 0 (FiatRateCache.mk0 3600)).1).1.fetches = 2) ∧
    (10 - 0 ≤ 3600 →
      (FiatRateCache.maybe_refresh (some []) 10
        (FiatRateCache.maybe_refresh (some []) 0 (FiatRateCache.mk0 3600)).1).1.fetches = 1) ∧
    (10 - 0 > 3600 →
      (FiatRateCache.maybe_refresh (some []) 10
        (FiatRateCache.maybe_refresh (some []) 0 (FiatRateCache.mk0 3600)).1).1.fetches = 2) :=
  c8_ttl_gates_fetches 3600 0 10 none none [] [] (by decide)

theorem mapsConsistent_insert {m : Dict String} {md : Dict (Dict Value)}
    (h : mapsConsistent m md) (sym i : String) (data : Dict Value) :
    mapsConsistent (Dict.insert m sym i) (Dict.insert md i data) := by
  intro s j hj
  rw [Dict.lookup_insert] at hj
  by_cases hss : sym = s
  · rw [if_pos hss] at hj
    cases hj
    simp [Dict.contains, Dict.lookup_insert_self]
  · rw [if_neg hss] at hj
    exact Dict.contains_of_contains_insert i data (h s j hj)

theorem topAssetsStep_consistent {acc : TopAssets}
    (h : mapsConsistent acc.symbol_to_id acc.id_to_market_data) (coin : Dict Value) :
    mapsConsistent (topAssetsStep acc coin).symbol_to_id
      (topAssetsStep acc coin).id_to_market_data := by
  unfold topAssetsStep
  cases hci : coinIdTruthy coin with
  | none => simp only [hci]; exact h
  | some i =>
      simp only [hci]
      by_cases hcond : coinSymbol coin ≠ "" ∧
          Dict.contains acc.symbol_to_id (coinSymbol coin) = false
      · rw [if_pos hcond]
        exact mapsConsistent_insert h _ i _
      · rw [if_neg hcond]
        exact h

theorem foldl_topAssetsStep_consistent (entries : List (Dict Value)) (acc : TopAssets)
    (h : mapsConsistent acc.symbol_to_id acc.id_to_market_data) :
    mapsConsistent (entries.foldl topAssetsStep acc).symbol_to_id
      (entries.foldl topAssetsStep acc).id_to_market_data := by
  induction entries generalizing acc with
  | nil => exact h
  | cons coin rest ih => exact ih (topAssetsStep acc coin) (topAssetsStep_consistent h coin)

theorem get_top_assets_consistent (fetched : Option (List (List (Dict Value)))) :
    mapsConsistent (get_top_assets fetched).symbol_to_id
      (get_top_assets fetched).id_to_market_data := by
  have hempty : mapsConsistent ([] : Dict String) ([] : Dict (Dict Value)) := by
    intro s i hsi
    simp [Dict.lookup] at hsi
  rcases fetched with _ | pages
  · exact hempty
  · rw [get_top_assets_some_eq pages]
    exact foldl_topAssetsStep_consistent pages.flatten ⟨[], []⟩ hempty

theorem get_asset_fallback_some {respond : String → Option (List (Dict Value))}
    {c : MarketDataCache} {symbol : String} {c' : MarketDataCache} {fid : String}
    (h : idsConsistent c)
    (he : MarketDataCache.get_asset_fallback respond c symbol = (c', some fid)) :
    idsConsistent c' ∧ Dict.contains c'.id_to_market_data fid = true := by
  unfold MarketDataCache.get_asset_fallback at he
  rcases hg : get_coin_market_data_by_symbol respond (pyList symbol) with ⟨aid, md⟩
  rw [hg] at he
  rcases aid with _ | aid
  · simp at he
  · simp only [Prod.mk.injEq, Option.some.injEq] at he
    obtain ⟨rfl, rfl⟩ := he
    refine ⟨mapsConsistent_insert h symbol _ md, ?_⟩
    simp [Dict.contains, Dict.lookup_insert_self]

theorem get_asset_fallback_consistent (respond : String → Option (List (Dict Value)))
    (c : MarketDataCache) (symbol : String) (h : idsConsistent c) :
    idsConsistent (MarketDataCache.get_asset_fallback respond c symbol).1 := by
  rcases he : MarketDataCache.get_asset_fallback respond c symbol with ⟨c', optid⟩
  rcases optid with _ | fid
  · have : c' = c := by
      unfold MarketDataCache.get_asset_fallback at he
      rcases hg : get_coin_market_data_by_symbol respond (pyList symbol) with ⟨aid, md⟩
      rw [hg] at he
      rcases aid with _ | aid <;> simp at he
      · exact he.symm
    rw [this]
    exact h
  · exact (get_asset_fallback_some h he).1

theorem resolve_cg_id_consistent {respond : String → Option (List (Dict Value))}
    {c : MarketDataCache} {symbol : String} {c1 : MarketDataCache} {cg_id : String}
    (h : idsConsistent c)
    (he : resolve_cg_id respond c symbol = (c1, some cg_id)) :
    idsConsistent c1 ∧ Dict.contains c1.id_to_market_data cg_id = true := by
  unfold resolve_cg_id at he
  cases hg : MarketDataCache.get_id_from_symbol c symbol with
  | some cg =>
      rw [hg] at he
      simp only [Prod.mk.injEq, Option.some.injEq] at he
      obtain ⟨rfl, rfl⟩ := he
      exact ⟨h, h _ _ hg⟩
  | none =>
      rw [hg] at he
      rcases hf : MarketDataCache.get_asset_fallback respond c symbol with ⟨c', optid⟩
      rw [hf] at he
      rcases optid with _ | fid
      · simp at he
      · change (if fid = "" then (c', none) else (c', some fid)) = (c1, some cg_id) at he
        by_cases hfe : fid = ""
        · rw [if_pos hfe] at he
          simp at he
        · rw [if_neg hfe] at he
          simp only [Prod.mk.injEq, Option.some.injEq] at he
          obtain ⟨rfl, rfl⟩ := he
          exact get_asset_fallback_some h hf

/-- C10: the `MarketDataCache` consistency invariant — every id occurring
as a value of `symbol_to_id` is a key of `id_to_market_data`.  It holds
for the default construction, after every `_refresh_cache` (both maps are
rebuilt together, whether the fetch succeeded or failed), and is preserved
by `get_asset_fallback` (success inserts into both maps, failure touches
neither); consequently, whenever `resolve_cg_id` returns an id, the
unguarded index `market_cache.id_to_market_data[cg_id]` performed by
`enrich_holdings` finds a key and cannot raise. -/
theorem c10_resolved_ids_always_cached :
    (∀ ttl, idsConsistent (MarketDataCache.mk0 ttl)) ∧
    (∀ fetched now c, idsConsistent (MarketDataCache.refresh_cache fetched now c)) ∧
    (∀ respond c symbol, idsConsistent c →
      idsConsistent (MarketDataCache.get_asset_fallback respond c symbol).1) ∧
    (∀ respond c symbol c1 cg_id, idsConsistent c →
      resolve_cg_id respond c symbol = (c1, some cg_id) →
      idsConsistent c1 ∧ Dict.contains c1.id_to_market_data cg_id = true) := by
  refine ⟨?_, ?_, ?_, ?_⟩
  · intro ttl s i hsi
    simp [MarketDataCache.mk0, Dict.lookup] at hsi
  · intro fetched now c
    exact get_top_assets_consistent fetched
  · intro respond c symbol h
    exact get_asset_fallback_consistent respond c symbol h
  · intro respond c symbol c1 cg_id h he
    exact resolve_cg_id_consistent h he

/-- Witness for C10: the invariant after a concrete failed refresh, and
after a concrete fallback-backed resolve the returned id is a key of the
metadata map. -/
theorem reduceOption_length_sub {α : Type} (l : List (Option α)) :
    l.reduceOption.length = l.length - l.countP Option.isNone := by
  have h := List.length_eq_reduceOption_length_add_filter_none (l := l)
  rw [List.countP_eq_length_filter]
  omega

theorem enrich_holdings_trace (respond : String → Option (List (Dict Value)))
    (fiat : FiatRateCache) :
    ∀ (assets : List (Dict Value)) (c c' : MarketDataCache) (out : List EnrichedAsset),
      enrich_holdings respond fiat c assets = some (c', out) →
      ∃ rs, enrichResults respond fiat c assets = some rs ∧
        rs.length = assets.length ∧ out = rs.reduceOption := by
  intro assets
  induction assets with
  | nil =>
      intro c c' out he
      simp only [enrich_holdings, Option.some.injEq, Prod.mk.injEq] at he
      obtain ⟨rfl, rfl⟩ := he
      exact ⟨[], rfl, rfl, rfl⟩
  | cons a rest ih =>
      intro c c' out he
      simp only [enrich_holdings] at he
      split at he
      · exact absurd he (by simp)
      · next c1 r h1 =>
          split at he
          · exact absurd he (by simp)
          · next c2 tail h2 =>
              simp only [Option.some.injEq, Prod.mk.injEq] at he
              obtain ⟨rfl, rfl⟩ := he
              obtain ⟨rs, hrs, hlen, hout⟩ := ih c1 c2 tail h2
              refine ⟨r :: rs, ?_, by simp [hlen], ?_⟩
              · simp only [enrichResults, h1, hrs, Option.map]
              · cases r <;>
                  simp [hout, List.reduceOption_cons_of_some, List.reduceOption_cons_of_none]

/-- C7: (1) a successful `enrich_holdings` run yields exactly one outcome
per raw holding, in input order — the output is the in-order flattening
(`reduceOption`) of the per-holding trace, so enrichment never reorders,
and the output length is the input length minus the number of dropped
holdings; (2) a holding resolving to no market identity and having no
fiat rate contributes no output entry. -/
theorem c7_enrich_preserves_order_and_drops
    (respond : String → Option (List (Dict Value))) (fiat : FiatRateCache) :
    (∀ assets c c' out, enrich_holdings respond fiat c assets = some (c', out) →
      ∃ rs, enrichResults respond fiat c assets = some rs ∧
        rs.length = assets.length ∧ out = rs.reduceOption ∧
        out.length = assets.length - rs.countP Option.isNone) ∧
    (∀ c asset s, assetSymbol asset = some s →
      (resolve_cg_id respond c (pyLower s)).2 = none →
      FiatRateCache.get_rate fiat (pyLower s) = none →
      enrichOne respond fiat c asset =
        some ((resolve_cg_id respond c (pyLower s)).1, none)) := by
  constructor
  · intro assets c c' out he
    obtain ⟨rs, hrs, hlen, hout⟩ := enrich_holdings_trace respond fiat assets c c' out he
    exact ⟨rs, hrs, hlen, hout, by rw [hout, reduceOption_length_sub, hlen]⟩
  · intro c asset s hsym hres hrate
    have hef : enrich_fiat_asset asset fiat = some none := by
      unfold enrich_fiat_asset
      rw [hsym]
      simp only [hrate]
    unfold enrichOne
    rw [hsym]
    rcases hr : resolve_cg_id respond c (pyLower s) with ⟨c1, optid⟩
    rw [hr] at hres
    simp only at hres
    subst hres
    simp [hr, hef]

/-- Witness for C7 on a concrete three-holding run (one crypto, one fiat,
one dropped). -/
theorem c7_enrich_witness :
    (∃ rs, enrichResults c7respond c7fiat c7market c7assets = some rs ∧
      rs.length = c7assets.length ∧ c7out = rs.reduceOption ∧
      c7out.length = c7assets.length - rs.countP Option.isNone) ∧
    enrichOne c7respond c7fiat c7market c7xzy =
      some ((resolve_cg_id c7respond c7market (pyLower "XZY")).1, none) :=
  ⟨(c7_enrich_preserves_order_and_drops c7respond c7fiat).1 c7assets c7market c7market
      c7out rfl,
   (c7_enrich_preserves_order_and_drops c7respond c7fiat).2 c7market c7xzy "XZY"
      (by decide) (by decide) (by decide)⟩

theorem c10_resolved_ids_witness :
    idsConsistent (MarketDataCache.refresh_cache none 0 (MarketDataCache.mk0 3600)) ∧
    (idsConsistent c10resolved ∧
      Dict.contains c10resolved.id_to_market_data "dogecoin" = true) :=
  ⟨c10_resolved_ids_always_cached.2.1 none 0 (MarketDataCache.mk0 3600),
   c10_resolved_ids_always_cached.2.2.2 c10respond (MarketDataCache.mk0 3600) "doge"
     c10resolved "dogecoin"
     (by intro s i hsi; simp [MarketDataCache.mk0, Dict.lookup] at hsi)
     (by decide)⟩

end Midas
